import Mathlib

/-!
Shallow embedding of the vulkan-tutorial application (src/main.rs) and
verification of its specification claims.  Pure selection logic, the
frame-scheduler state machine and the teardown sequence are translated
directly from the Rust source; Vulkan handles are modelled as plain data.
-/

/-- The constant MAX_FRAMES_IN_FLIGHT from src/main.rs line 71. -/
def MAX_FRAMES_IN_FLIGHT : Nat := 2

/-- Maximum value of a u32, the undefined-extent sentinel component. -/
def u32Max : Nat := 4294967295

/-- Pixel formats, as far as the program distinguishes them. -/
inductive VkFormat where
  | B8G8R8A8_SRGB
  | R8G8B8A8_SRGB
  | B8G8R8A8_UNORM
  deriving DecidableEq, Repr

/-- Color spaces, as far as the program distinguishes them. -/
inductive ColorSpaceKHR where
  | SRGB_NONLINEAR
  | OTHER_COLOR_SPACE
  deriving DecidableEq, Repr

/-- Present modes of the surface. -/
inductive PresentModeKHR where
  | IMMEDIATE
  | MAILBOX
  | FIFO
  | FIFO_RELAXED
  deriving DecidableEq, Repr

/-- vk::SurfaceFormatKHR: a format plus a color space. -/
structure SurfaceFormatKHR where
  format : VkFormat
  color_space : ColorSpaceKHR
  deriving DecidableEq, Repr

/-- vk::Extent2D with u32 components modelled as Nat. -/
structure Extent2D where
  width : Nat
  height : Nat
  deriving DecidableEq, Repr

/-- The fields of vk::SurfaceCapabilitiesKHR that the program reads. -/
structure SurfaceCapabilitiesKHR where
  current_extent : Extent2D
  min_image_extent : Extent2D
  max_image_extent : Extent2D
  min_image_count : Nat
  max_image_count : Nat
  deriving DecidableEq, Repr

/-- The BGRA8 + sRGB-nonlinear pair preferred by format selection. -/
def bgraSrgb : SurfaceFormatKHR :=
  { format := VkFormat.B8G8R8A8_SRGB, color_space := ColorSpaceKHR.SRGB_NONLINEAR }

/-- VulkanApp::choose_swap_surface_format (main.rs 889-903): the for loop
with early return is the first match of the predicate; afterwards element 0
is returned (None models the panic of .expect on an empty list). -/
def choose_swap_surface_format (available_formats : List SurfaceFormatKHR) :
    Option SurfaceFormatKHR :=
  match available_formats.find? (fun f =>
      f.color_space == ColorSpaceKHR.SRGB_NONLINEAR
        && f.format == VkFormat.B8G8R8A8_SRGB) with
  | some f => some f
  | none => available_formats.get? 0

/-- VulkanApp::choose_swap_present_mode (main.rs 905-915). -/
def choose_swap_present_mode (available_present_modes : List PresentModeKHR) :
    PresentModeKHR :=
  match available_present_modes.find? (fun m => m == PresentModeKHR.MAILBOX) with
  | some m => m
  | none => PresentModeKHR.FIFO

/-- Rust u32::clamp(lo, hi) on Nat (the panic when lo > hi is not modelled;
theorems about in-range results assume lo ≤ hi). -/
def rustClamp (x lo hi : Nat) : Nat :=
  if x < lo then lo else if hi < x then hi else x

/-- VulkanApp::choose_swap_extent (main.rs 917-936): the code compares only
the WIDTH of current_extent against u32::MAX. -/
def choose_swap_extent (capabilites : SurfaceCapabilitiesKHR)
    (window_size : Extent2D) : Extent2D :=
  if capabilites.current_extent.width ≠ u32Max then
    capabilites.current_extent
  else
    { width := rustClamp window_size.width
        capabilites.min_image_extent.width capabilites.max_image_extent.width,
      height := rustClamp window_size.height
        capabilites.min_image_extent.height capabilites.max_image_extent.height }

/-- Image-count selection from VulkanApp::create_swapchain (main.rs 693-698). -/
def swapImageCount (min_image_count max_image_count : Nat) : Nat :=
  let image_count := min_image_count + 1
  if max_image_count > 0 ∧ image_count > max_image_count then
    max_image_count
  else
    image_count

/-- C5: for every non-empty list of surface formats, format selection returns
the BGRA8 + sRGB-nonlinear pair whenever that pair appears anywhere in the
list; otherwise it returns the element at index 0. -/
theorem choose_swap_surface_format_spec (l : List SurfaceFormatKHR)
    (hne : l ≠ []) :
    (bgraSrgb ∈ l → choose_swap_surface_format l = some bgraSrgb) ∧
    (bgraSrgb ∉ l → choose_swap_surface_format l = some (l.head hne)) := by
  constructor
  · intro hmem
    have hne2 : l.find? (fun f =>
        f.color_space == ColorSpaceKHR.SRGB_NONLINEAR
          && f.format == VkFormat.B8G8R8A8_SRGB) ≠ none := by
      intro hnone
      have := List.find?_eq_none.mp hnone bgraSrgb hmem
      exact this (by decide)
    obtain ⟨f, hf⟩ := Option.ne_none_iff_exists'.mp hne2
    have hpf := List.find?_some hf
    have hfeq : f = bgraSrgb := by
      cases f with
      | mk fmt cs =>
        simp only [Bool.and_eq_true, beq_iff_eq] at hpf
        simp [bgraSrgb, hpf.1, hpf.2]
    subst hfeq
    simp [choose_swap_surface_format, hf]
  · intro hnmem
    have hnone : l.find? (fun f =>
        f.color_space == ColorSpaceKHR.SRGB_NONLINEAR
          && f.format == VkFormat.B8G8R8A8_SRGB) = none := by
      apply List.find?_eq_none.mpr
      intro x hx
      intro hpx
      apply hnmem
      have : x = bgraSrgb := by
        cases x with
        | mk fmt cs =>
          simp only [Bool.and_eq_true, beq_iff_eq] at hpx
          simp [bgraSrgb, hpx.1, hpx.2]
      exact this ▸ hx
    cases l with
    | nil => exact absurd rfl hne
    | cons a as => simp [choose_swap_surface_format, hnone]

/-- C5 witness: evaluated at a concrete two-element list with the preferred
pair in second position. -/
theorem choose_swap_surface_format_spec_witness :
    choose_swap_surface_format
      [{ format := VkFormat.B8G8R8A8_UNORM,
         color_space := ColorSpaceKHR.OTHER_COLOR_SPACE }, bgraSrgb]
      = some bgraSrgb :=
  (choose_swap_surface_format_spec
      [{ format := VkFormat.B8G8R8A8_UNORM,
         color_space := ColorSpaceKHR.OTHER_COLOR_SPACE }, bgraSrgb]
      (by decide)).1 (by decide)

/-- C6: present-mode selection returns MAILBOX whenever MAILBOX appears
anywhere in the list; otherwise it returns FIFO, even when other
non-FIFO, non-MAILBOX modes are present. -/
theorem choose_swap_present_mode_spec (l : List PresentModeKHR) :
    choose_swap_present_mode l =
      (if PresentModeKHR.MAILBOX ∈ l then PresentModeKHR.MAILBOX
       else PresentModeKHR.FIFO) := by
  induction l with
  | nil => simp [choose_swap_present_mode]
  | cons a as ih =>
    by_cases ha : a = PresentModeKHR.MAILBOX
    · subst ha
      simp [choose_swap_present_mode, List.find?]
    · have hne : (a == PresentModeKHR.MAILBOX) = false := by
        simp [ha]
      simp only [choose_swap_present_mode, List.find?, hne] at ih ⊢
      rw [ih]
      have ha2 : ¬ (PresentModeKHR.MAILBOX = a) := fun h => ha h.symm
      by_cases hmem : PresentModeKHR.MAILBOX ∈ as
      · simp [hmem, ha2]
      · simp [hmem, ha2]

/-- The undefined-extent sentinel: both components at the maximum u32 value. -/
def sentinelExtent : Extent2D := { width := u32Max, height := u32Max }

/-- rustClamp lands in [lo, hi] whenever lo ≤ hi. -/
theorem rustClamp_mem (x lo hi : Nat) (h : lo ≤ hi) :
    lo ≤ rustClamp x lo hi ∧ rustClamp x lo hi ≤ hi := by
  unfold rustClamp
  split
  · omega
  · split <;> omega

/-- Concrete capabilities used to test the extent-selection claim: the
current extent has width u32::MAX but height 600. -/
def c7Caps : SurfaceCapabilitiesKHR :=
  { current_extent := { width := u32Max, height := 600 },
    min_image_extent := { width := 1, height := 1 },
    max_image_extent := { width := 400, height := 400 },
    min_image_count := 2, max_image_count := 3 }

/-- Concrete window size used to test the extent-selection claim. -/
def c7Window : Extent2D := { width := 800, height := 600 }

/-- C7 counterexample: a current_extent whose width is u32::MAX but whose
height is 600 is not the undefined sentinel, yet the code does not return it
unchanged — it clamps the window size instead, because only the width
component is compared against u32::MAX. -/
theorem choose_swap_extent_claim_counterexample :
    c7Caps.current_extent ≠ sentinelExtent ∧
    choose_swap_extent c7Caps c7Window ≠ c7Caps.current_extent := by
  constructor
  · decide
  · decide

/-- C7 (amended): extent selection compares only the WIDTH of current_extent
against u32::MAX: when the width differs from u32::MAX the current extent is
returned unchanged regardless of window size; when the width equals u32::MAX
(the height is not examined) the window pixel size is returned with each
component clamped into [minImageExtent, maxImageExtent]. -/
theorem choose_swap_extent_spec (caps : SurfaceCapabilitiesKHR)
    (w : Extent2D) :
    (caps.current_extent.width ≠ u32Max →
       choose_swap_extent caps w = caps.current_extent) ∧
    (caps.current_extent.width = u32Max →
       choose_swap_extent caps w =
         { width := rustClamp w.width caps.min_image_extent.width
             caps.max_image_extent.width,
           height := rustClamp w.height caps.min_image_extent.height
             caps.max_image_extent.height } ∧
       (caps.min_image_extent.width ≤ caps.max_image_extent.width →
          caps.min_image_extent.width ≤ (choose_swap_extent caps w).width ∧
          (choose_swap_extent caps w).width ≤ caps.max_image_extent.width) ∧
       (caps.min_image_extent.height ≤ caps.max_image_extent.height →
          caps.min_image_extent.height ≤ (choose_swap_extent caps w).height ∧
          (choose_swap_extent caps w).height ≤ caps.max_image_extent.height)) := by
  constructor
  · intro h
    simp [choose_swap_extent, h]
  · intro h
    have heq : choose_swap_extent caps w =
        { width := rustClamp w.width caps.min_image_extent.width
            caps.max_image_extent.width,
          height := rustClamp w.height caps.min_image_extent.height
            caps.max_image_extent.height } := by
      simp [choose_swap_extent, h]
    refine ⟨heq, ?_, ?_⟩
    · intro hle
      rw [heq]
      exact rustClamp_mem w.width _ _ hle
    · intro hle
      rw [heq]
      exact rustClamp_mem w.height _ _ hle

/-- C7 witness: sentinel width with [1,400] clamp range and an 800×600
window yields the clamped extent 400×400. -/
theorem choose_swap_extent_spec_witness :
    choose_swap_extent
      { current_extent := sentinelExtent,
        min_image_extent := { width := 1, height := 1 },
        max_image_extent := { width := 400, height := 400 },
        min_image_count := 2, max_image_count := 3 }
      { width := 800, height := 600 }
      = { width := 400, height := 400 } :=
  (((choose_swap_extent_spec
      { current_extent := sentinelExtent,
        min_image_extent := { width := 1, height := 1 },
        max_image_extent := { width := 400, height := 400 },
        min_image_count := 2, max_image_count := 3 }
      { width := 800, height := 600 }).2 rfl).1).trans (by decide)

/-- C8: the chosen swapchain image count is minImageCount + 1, reduced to
maxImageCount only when maxImageCount > 0 and minImageCount + 1 exceeds it;
min=2, max=3 yields 3, and min=2, max=0 (unbounded) yields 3 uncapped. -/
theorem swapImageCount_spec (minC maxC : Nat) :
    ((0 < maxC ∧ maxC < minC + 1) → swapImageCount minC maxC = maxC) ∧
    ((maxC = 0 ∨ minC + 1 ≤ maxC) → swapImageCount minC maxC = minC + 1) ∧
    swapImageCount 2 3 = 3 ∧ swapImageCount 2 0 = 3 := by
  refine ⟨?_, ?_, by decide, by decide⟩
  · intro h
    simp only [swapImageCount]
    rw [if_pos]
    exact ⟨h.1, h.2⟩
  · intro h
    simp only [swapImageCount]
    rw [if_neg]
    rintro ⟨h1, h2⟩
    omega

/-- C8 witness: the two concrete cases named by the claim, derived from the
general statement. -/
theorem swapImageCount_spec_witness :
    swapImageCount 2 3 = 3 ∧ swapImageCount 2 0 = 3 :=
  ⟨(swapImageCount_spec 2 3).2.1 (Or.inr (by decide)),
   (swapImageCount_spec 2 0).2.1 (Or.inl rfl)⟩

/-- Rust slice::chunks_exact(4) from VulkanApp::create_shader_module
(main.rs 661-675): groups of four bytes; the remainder (up to three trailing
bytes) is DROPPED, not reported as an error. -/
def chunks4 : List Nat → List (Nat × Nat × Nat × Nat)
  | a :: b :: c :: d :: rest => (a, b, c, d) :: chunks4 rest
  | _ => []

/-- u32::from_le_bytes on a four-byte group (bytes are u8, i.e. < 256). -/
def fromLeBytes (q : Nat × Nat × Nat × Nat) : Nat :=
  q.1 + q.2.1 * 256 + q.2.2.1 * 65536 + q.2.2.2 * 16777216

/-- The four bytes of a group, in file order. -/
def quadToList (q : Nat × Nat × Nat × Nat) : List Nat :=
  [q.1, q.2.1, q.2.2.1, q.2.2.2]

/-- VulkanApp::create_shader_module (main.rs 661-675): std::fs::read is
modelled by an Option argument (none = missing file, propagated as an
error by the ? operator); the byte stream is chunked into exact groups of
four and each group parsed as a little-endian 32-bit word. -/
def create_shader_module (file : Option (List Nat)) :
    Except String (List Nat) :=
  match file with
  | none => Except.error "No such file or directory"
  | some bitcode_bytes => Except.ok ((chunks4 bitcode_bytes).map fromLeBytes)

/-- chunks4 produces exactly length / 4 groups. -/
theorem chunks4_length (bs : List Nat) :
    (chunks4 bs).length = bs.length / 4 :=
  match bs with
  | [] => by simp [chunks4]
  | [a] => by simp [chunks4]
  | [a, b] => by simp [chunks4]
  | [a, b, c] => by simp [chunks4]
  | a :: b :: c :: d :: rest => by
    have ih := chunks4_length rest
    simp only [chunks4, List.length_cons, List.length]
    omega

/-- The bytes consumed by chunks4 are exactly the first 4 * (length / 4)
bytes of the stream, in order; the trailing length mod 4 bytes are dropped. -/
theorem chunks4_flatMap_quadToList (bs : List Nat) :
    (chunks4 bs).flatMap quadToList = bs.take (4 * (bs.length / 4)) :=
  match bs with
  | [] => by simp [chunks4]
  | [a] => by simp [chunks4]
  | [a, b] => by simp [chunks4]
  | [a, b, c] => by simp [chunks4]
  | a :: b :: c :: d :: rest => by
    have ih := chunks4_flatMap_quadToList rest
    have harith : 4 * ((rest.length + 1 + 1 + 1 + 1) / 4)
        = 4 * (rest.length / 4) + 4 := by omega
    simp only [chunks4, List.flatMap_cons, List.length_cons, harith]
    simp [quadToList, List.take, ih]

/-- C3 counterexample: a 5-byte stream (length not a multiple of 4) is NOT
rejected; the trailing byte is silently dropped and the first four bytes are
parsed, so loading succeeds where the claim requires a ShaderLoadError. -/
theorem create_shader_module_claim_counterexample :
    ([0, 0, 0, 0, 7] : List Nat).length % 4 ≠ 0 ∧
    create_shader_module (some [0, 0, 0, 0, 7]) = Except.ok [0] := by
  exact ⟨by decide, rfl⟩

/-- C3 (amended): shader loading fails when the file is missing; for a
present file of ANY length no error is raised: the bytes are grouped in
fours, each group is parsed as a 32-bit little-endian word, and the
trailing length mod 4 bytes are silently dropped (in particular, when the
length is a multiple of 4 every byte is consumed). -/
theorem create_shader_module_spec :
    create_shader_module none = Except.error "No such file or directory" ∧
    (∀ bs : List Nat,
      create_shader_module (some bs) =
        Except.ok ((chunks4 bs).map fromLeBytes) ∧
      ((chunks4 bs).map fromLeBytes).length = bs.length / 4 ∧
      (chunks4 bs).flatMap quadToList = bs.take (4 * (bs.length / 4)) ∧
      (bs.length % 4 = 0 → (chunks4 bs).flatMap quadToList = bs)) ∧
    (∀ a b c d : Nat,
      fromLeBytes (a, b, c, d) = a + b * 2 ^ 8 + c * 2 ^ 16 + d * 2 ^ 24) := by
  refine ⟨rfl, ?_, ?_⟩
  · intro bs
    refine ⟨rfl, ?_, chunks4_flatMap_quadToList bs, ?_⟩
    · simp [chunks4_length bs]
    · intro hmod
      rw [chunks4_flatMap_quadToList bs]
      have : 4 * (bs.length / 4) = bs.length := by omega
      rw [this, List.take_length]
  · intro a b c d
    norm_num [fromLeBytes]

/-- C3 witness: an 8-byte stream parses into its two little-endian words
and is consumed in full. -/
theorem create_shader_module_spec_witness :
    create_shader_module (some [1, 0, 0, 0, 2, 0, 0, 0]) = Except.ok [1, 2] ∧
    (chunks4 [1, 0, 0, 0, 2, 0, 0, 0]).flatMap quadToList
      = [1, 0, 0, 0, 2, 0, 0, 0] :=
  ⟨((create_shader_module_spec.2.1 [1, 0, 0, 0, 2, 0, 0, 0]).1).trans rfl,
   (create_shader_module_spec.2.1 [1, 0, 0, 0, 2, 0, 0, 0]).2.2.2 (by decide)⟩

/-- QueueFamilyIndices from src/main.rs lines 73-76 and 84-88. -/
structure QueueFamilyIndices where
  graphics_family : Option Nat
  presentation_family : Option Nat
  deriving DecidableEq, Repr

/-- QueueFamilyIndices::is_complete (main.rs 85-87). -/
def QueueFamilyIndices.is_complete (i : QueueFamilyIndices) : Bool :=
  i.graphics_family.isSome && i.presentation_family.isSome

/-- vk::DeviceQueueCreateInfo as far as the program fills it: one queue
family index and the list of queue priorities. -/
structure DeviceQueueCreateInfo where
  queue_family_index : Nat
  queue_priorities : List ℚ
  deriving DecidableEq, Repr

/-- VulkanApp::create_logical_device (main.rs 789-836): bails when the
indices are incomplete, then UNCONDITIONALLY builds a two-element
queue-create array [graphics, presentation] (no deduplication), and returns
the handles of queue 0 of each requested family. -/
def create_logical_device (indices : QueueFamilyIndices) :
    Except String (List DeviceQueueCreateInfo × (Nat × Nat) × (Nat × Nat)) :=
  if !indices.is_complete then
    Except.error "incomplete queue family support"
  else
    match indices.graphics_family, indices.presentation_family with
    | some g, some p =>
        Except.ok ([{ queue_family_index := g, queue_priorities := [1] },
                    { queue_family_index := p, queue_priorities := [1] }],
                   (g, 0), (p, 0))
    | _, _ => Except.error "incomplete queue family support"

/-- C9: evaluated at coinciding families (graphics = presentation = 0) the
code produces TWO queue-create entries that both name family 0 — the
queue-create list is not deduplicated, contradicting the claim of one entry
per unique family — while both returned queue handles do reference the same
underlying queue (family 0, queue index 0). -/
theorem create_logical_device_duplicate_family :
    ∃ (entries : List DeviceQueueCreateInfo) (gq pq : Nat × Nat),
      create_logical_device
        { graphics_family := some 0, presentation_family := some 0 }
        = Except.ok (entries, gq, pq) ∧
      entries.map (fun e => e.queue_family_index) = [0, 0] ∧
      ¬ (entries.map (fun e => e.queue_family_index)).Nodup ∧
      gq = pq := by
  refine ⟨[{ queue_family_index := 0, queue_priorities := [1] },
           { queue_family_index := 0, queue_priorities := [1] }],
          (0, 0), (0, 0), rfl, rfl, ?_, rfl⟩
  decide

/-- One entry of get_physical_device_queue_family_properties together with
the per-index surface-support query result, as read by
VulkanApp::find_queue_families (main.rs 957-984). -/
structure QueueFamilyProps where
  graphics : Bool
  surface_support : Bool
  deriving DecidableEq, Repr

/-- The enumerate-and-overwrite loop body of VulkanApp::find_queue_families
(main.rs 970-981): every family is visited; a match OVERWRITES the
previously stored index. -/
def find_queue_families_aux (idx : Nat) (acc : QueueFamilyIndices) :
    List QueueFamilyProps → QueueFamilyIndices
  | [] => acc
  | family :: rest =>
    let acc1 := if family.graphics
      then { acc with graphics_family := some idx } else acc
    let acc2 := if family.surface_support
      then { acc1 with presentation_family := some idx } else acc1
    find_queue_families_aux (idx + 1) acc2 rest

/-- VulkanApp::find_queue_families (main.rs 957-984). -/
def find_queue_families (families : List QueueFamilyProps) :
    QueueFamilyIndices :=
  find_queue_families_aux 0
    { graphics_family := none, presentation_family := none } families

/-- Index of the LAST element satisfying p, if any. -/
def lastIdxWhere {α : Type} (p : α → Bool) : List α → Option Nat
  | [] => none
  | a :: rest =>
    match lastIdxWhere p rest with
    | some k => some (k + 1)
    | none => if p a then some 0 else none

theorem find_queue_families_aux_graphics (l : List QueueFamilyProps) :
    ∀ (idx : Nat) (acc : QueueFamilyIndices),
    (find_queue_families_aux idx acc l).graphics_family =
      (match lastIdxWhere (fun f => f.graphics) l with
       | some k => some (idx + k)
       | none => acc.graphics_family) := by
  induction l with
  | nil => intro idx acc; simp [find_queue_families_aux, lastIdxWhere]
  | cons f rest ih =>
    intro idx acc
    obtain ⟨g, s⟩ := f
    simp only [find_queue_families_aux, lastIdxWhere]
    rw [ih]
    cases h : lastIdxWhere (fun f => f.graphics) rest with
    | some k =>
      show some (idx + 1 + k) = some (idx + (k + 1))
      congr 1
      omega
    | none =>
      cases g <;> cases s <;> simp

theorem find_queue_families_aux_presentation (l : List QueueFamilyProps) :
    ∀ (idx : Nat) (acc : QueueFamilyIndices),
    (find_queue_families_aux idx acc l).presentation_family =
      (match lastIdxWhere (fun f => f.surface_support) l with
       | some k => some (idx + k)
       | none => acc.presentation_family) := by
  induction l with
  | nil => intro idx acc; simp [find_queue_families_aux, lastIdxWhere]
  | cons f rest ih =>
    intro idx acc
    obtain ⟨g, s⟩ := f
    simp only [find_queue_families_aux, lastIdxWhere]
    rw [ih]
    cases h : lastIdxWhere (fun f => f.surface_support) rest with
    | some k =>
      show some (idx + 1 + k) = some (idx + (k + 1))
      congr 1
      omega
    | none =>
      cases g <;> cases s <;> simp

theorem lastIdxWhere_eq_none_iff {α : Type} (p : α → Bool) (l : List α) :
    lastIdxWhere p l = none ↔ ∀ a ∈ l, p a = false := by
  induction l with
  | nil => simp [lastIdxWhere]
  | cons a rest ih =>
    simp only [lastIdxWhere, List.mem_cons]
    cases h : lastIdxWhere p rest with
    | some k =>
      simp only []
      constructor
      · intro hcontra; exact absurd hcontra (by simp)
      · intro hall
        have : ∀ b ∈ rest, p b = false := fun b hb => hall b (Or.inr hb)
        rw [ih.mpr this] at h
        exact absurd h (by simp)
    | none =>
      cases hpa : p a with
      | true =>
        simp only [if_pos rfl]
        constructor
        · intro hc; exact absurd hc (by simp)
        · intro hall
          have := hall a (Or.inl rfl)
          rw [hpa] at this
          exact absurd this (by simp)
      | false =>
        have hftf : ¬ (false = true) := by decide
        simp only [if_neg hftf]
        constructor
        · intro _ b hb
          rcases hb with hb | hb
          · exact hb ▸ hpa
          · exact (ih.mp h) b hb
        · intro _; trivial

theorem lastIdxWhere_eq_some_iff {α : Type} (p : α → Bool) :
    ∀ (l : List α) (i : Nat),
    lastIdxWhere p l = some i ↔
      ((∃ a, l.get? i = some a ∧ p a = true) ∧
       ∀ j, i < j → ∀ a, l.get? j = some a → p a = false) := by
  intro l
  induction l with
  | nil => intro i; simp [lastIdxWhere]
  | cons a rest ih =>
    intro i
    cases h : lastIdxWhere p rest with
    | some k =>
      cases i with
      | zero =>
        simp only [lastIdxWhere, h]
        constructor
        · intro hc; exact absurd hc (by simp)
        · rintro ⟨_, hall⟩
          have hk := (ih k).mp h
          obtain ⟨b, hb, hpb⟩ := hk.1
          have := hall (k + 1) (by omega) b (by simpa using hb)
          rw [hpb] at this
          exact absurd this (by simp)
      | succ n =>
        simp only [lastIdxWhere, h]
        constructor
        · intro hc
          have hkn : k = n := by simpa using hc
          subst hkn
          have hk := (ih k).mp h
          refine ⟨?_, ?_⟩
          · obtain ⟨b, hb, hpb⟩ := hk.1
            exact ⟨b, by simpa using hb, hpb⟩
          · intro j hj b hb
            cases j with
            | zero => omega
            | succ m =>
              have hb2 : rest.get? m = some b := by simpa using hb
              exact hk.2 m (by omega) b hb2
        · rintro ⟨⟨b, hb, hpb⟩, hall⟩
          have hrn : lastIdxWhere p rest = some n := by
            apply (ih n).mpr
            refine ⟨⟨b, by simpa using hb, hpb⟩, ?_⟩
            intro j hj c hc
            exact hall (j + 1) (by omega) c (by simpa using hc)
          rw [h] at hrn
          have : k = n := by simpa using hrn
          subst this
          rfl
    | none =>
      have hrest : ∀ b ∈ rest, p b = false :=
        (lastIdxWhere_eq_none_iff p rest).mp h
      have hftf : ¬ (false = true) := by decide
      cases hpa : p a with
      | true =>
        simp only [lastIdxWhere, h, hpa]
        rw [if_pos trivial]
        cases i with
        | zero =>
          constructor
          · intro _
            refine ⟨⟨a, rfl, hpa⟩, ?_⟩
            intro j hj b hb
            cases j with
            | zero => omega
            | succ m =>
              have hb2 : rest.get? m = some b := by simpa using hb
              exact hrest b (List.get?_mem hb2)
          · intro _; rfl
        | succ n =>
          constructor
          · intro hc; exact absurd hc (by simp)
          · rintro ⟨⟨b, hb, hpb⟩, _⟩
            have hb2 : rest.get? n = some b := by simpa using hb
            have := hrest b (List.get?_mem hb2)
            rw [hpb] at this
            exact absurd this (by simp)
      | false =>
        simp only [lastIdxWhere, h, hpa]
        rw [if_neg hftf]
        constructor
        · intro hc; exact absurd hc (by simp)
        · rintro ⟨⟨b, hb, hpb⟩, _⟩
          cases i with
          | zero =>
            have hba : a = b := by simpa using hb
            subst hba
            rw [hpa] at hpb
            exact absurd hpb (by simp)
          | succ n =>
            have hb2 : rest.get? n = some b := by simpa using hb
            have := hrest b (List.get?_mem hb2)
            rw [hpb] at this
            exact absurd this (by simp)

/-- C10: the queue-family scan examines every family and OVERWRITES earlier
matches, so the returned graphics family index (respectively presentation
family index) is precisely the highest-indexed family with graphics
capability (respectively surface support), not the first such family. -/
theorem find_queue_families_last_match (families : List QueueFamilyProps)
    (i : Nat) :
    ((find_queue_families families).graphics_family = some i ↔
      ((∃ f, families.get? i = some f ∧ f.graphics = true) ∧
       ∀ j, i < j → ∀ f, families.get? j = some f → f.graphics = false)) ∧
    ((find_queue_families families).presentation_family = some i ↔
      ((∃ f, families.get? i = some f ∧ f.surface_support = true) ∧
       ∀ j, i < j → ∀ f, families.get? j = some f →
         f.surface_support = false)) := by
  have hg2 : (find_queue_families families).graphics_family
      = lastIdxWhere (fun f => f.graphics) families := by
    rw [find_queue_families, find_queue_families_aux_graphics]
    cases h : lastIdxWhere (fun f => f.graphics) families with
    | some k => simp
    | none => rfl
  have hp2 : (find_queue_families families).presentation_family
      = lastIdxWhere (fun f => f.surface_support) families := by
    rw [find_queue_families, find_queue_families_aux_presentation]
    cases h : lastIdxWhere (fun f => f.surface_support) families with
    | some k => simp
    | none => rfl
  constructor
  · rw [hg2]
    exact lastIdxWhere_eq_some_iff _ families i
  · rw [hp2]
    exact lastIdxWhere_eq_some_iff _ families i

/-- C10 witness: with two graphics-capable, surface-capable families the
scan returns index 1, the last match, not the first one at index 0. -/
theorem find_queue_families_last_match_witness :
    (find_queue_families
      [{ graphics := true, surface_support := true },
       { graphics := true, surface_support := true }]).graphics_family
      = some 1 := by
  apply ((find_queue_families_last_match
      [{ graphics := true, surface_support := true },
       { graphics := true, surface_support := true }] 1).1).mpr
  refine ⟨⟨{ graphics := true, surface_support := true }, rfl, rfl⟩, ?_⟩
  intro j hj f hf
  have hnone : ([{ graphics := true, surface_support := true },
      { graphics := true, surface_support := true }] :
      List QueueFamilyProps).get? j = none := by
    rw [List.get?_eq_none]
    simp only [List.length_cons, List.length_nil]
    omega
  rw [hnone] at hf
  exact absurd hf (by simp)

/-- Read-only capability snapshot of one physical device: its queue-family
properties (with per-index surface support), its supported device-extension
names, and the surface formats and present modes it reports. -/
structure PhysicalDeviceDesc where
  queue_families : List QueueFamilyProps
  extensions : List String
  formats : List SurfaceFormatKHR
  present_modes : List PresentModeKHR
  deriving DecidableEq, Repr

/-- The single required device extension (main.rs 65-66). -/
def swapchainExtensionName : String := "VK_KHR_swapchain"

/-- VulkanApp::check_device_extension_support (main.rs 938-955): scans the
enumerated extension names for VK_KHR_swapchain. -/
def check_device_extension_support (d : PhysicalDeviceDesc) : Bool :=
  d.extensions.contains swapchainExtensionName

/-- VulkanApp::is_device_suitable (main.rs 868-887). -/
def is_device_suitable (d : PhysicalDeviceDesc) : Bool :=
  let indices := find_queue_families d.queue_families
  let extensions_supported := check_device_extension_support d
  let swapchain_support :=
    if extensions_supported then
      !d.formats.isEmpty && !d.present_modes.isEmpty
    else
      false
  indices.is_complete && swapchain_support

/-- VulkanApp::pick_physical_device (main.rs 767-787): Iterator::find over
the enumerated devices with is_device_suitable as predicate. -/
def pick_physical_device (devices : List PhysicalDeviceDesc) :
    Except String PhysicalDeviceDesc :=
  match devices.find? is_device_suitable with
  | some d => Except.ok d
  | none => Except.error "Failed to find suitable device"

/-- find? returns the first match: the found element satisfies the
predicate and every element at a strictly smaller index fails it. -/
theorem find?_first_match {α : Type} (p : α → Bool) (l : List α) :
    ∀ a, l.find? p = some a →
      p a = true ∧ ∃ i, l.get? i = some a ∧
        ∀ j, j < i → ∀ b, l.get? j = some b → p b = false := by
  induction l with
  | nil => intro a ha; exact absurd ha (by simp)
  | cons x rest ih =>
    intro a ha
    cases hpx : p x with
    | true =>
      rw [List.find?_cons_of_pos _ hpx] at ha
      have hxa : x = a := by simpa using ha
      subst hxa
      exact ⟨hpx, 0, rfl, fun j hj => by omega⟩
    | false =>
      rw [List.find?_cons_of_neg _ (by simp [hpx])] at ha
      obtain ⟨hpa, i, hi, hbefore⟩ := ih a ha
      refine ⟨hpa, i + 1, by simpa using hi, ?_⟩
      intro j hj b hb
      cases j with
      | zero =>
        have hbx : x = b := by simpa using hb
        subst hbx
        exact hpx
      | succ m =>
        have hb2 : rest.get? m = some b := by simpa using hb
        exact hbefore m (by omega) b hb2

/-- C4: device selection returns the first suitable device in enumeration
order (suitable = complete queue-family indices AND the required device
extension present AND non-empty surface-format and present-mode lists),
with no scoring, and fails exactly when no enumerated device is suitable. -/
theorem pick_physical_device_spec (devices : List PhysicalDeviceDesc) :
    (∀ d, pick_physical_device devices = Except.ok d →
       is_device_suitable d = true ∧ ∃ i, devices.get? i = some d ∧
         ∀ j, j < i → ∀ d2, devices.get? j = some d2 →
           is_device_suitable d2 = false) ∧
    (pick_physical_device devices = Except.error "Failed to find suitable device"
       ↔ ∀ d ∈ devices, is_device_suitable d = false) := by
  constructor
  · intro d hd
    cases hfind : devices.find? is_device_suitable with
    | some d2 =>
      have : d2 = d := by
        simp only [pick_physical_device, hfind] at hd
        simpa using hd
      subst this
      exact find?_first_match is_device_suitable devices d2 hfind
    | none =>
      simp [pick_physical_device, hfind] at hd
  · constructor
    · intro herr
      cases hfind : devices.find? is_device_suitable with
      | some d2 => simp [pick_physical_device, hfind] at herr
      | none =>
        intro d hd
        have := List.find?_eq_none.mp hfind d hd
        simpa using this
    · intro hall
      have hnone : devices.find? is_device_suitable = none := by
        apply List.find?_eq_none.mpr
        intro d hd
        simpa using hall d hd
      simp [pick_physical_device, hnone]

/-- A physical device that is unsuitable: no queue families at all. -/
def unsuitableDev : PhysicalDeviceDesc :=
  { queue_families := [], extensions := [], formats := [], present_modes := [] }

/-- A fully suitable physical device. -/
def suitableDev : PhysicalDeviceDesc :=
  { queue_families := [{ graphics := true, surface_support := true }],
    extensions := [swapchainExtensionName],
    formats := [bgraSrgb],
    present_modes := [PresentModeKHR.FIFO] }

/-- A second, distinct suitable physical device. -/
def suitableDev2 : PhysicalDeviceDesc :=
  { queue_families := [{ graphics := true, surface_support := true }],
    extensions := [swapchainExtensionName],
    formats := [{ format := VkFormat.R8G8B8A8_SRGB,
                  color_space := ColorSpaceKHR.SRGB_NONLINEAR }],
    present_modes := [PresentModeKHR.MAILBOX] }

/-- C4 witness: on the mock list [unsuitable, unsuitable, suitable,
suitable] selection yields the device at index 2 and that device is
suitable. -/
theorem pick_physical_device_spec_witness :
    pick_physical_device [unsuitableDev, unsuitableDev, suitableDev,
      suitableDev2] = Except.ok suitableDev ∧
    is_device_suitable suitableDev = true :=
  ⟨rfl,
   ((pick_physical_device_spec [unsuitableDev, unsuitableDev, suitableDev,
      suitableDev2]).1 suitableDev rfl).1⟩

/-- Observable events of one scheduler tick (VulkanApp::draw_frame).
Fences are identified by the slot that owns them. -/
inductive FrameEv where
  | waitFence (slot : Nat)
  | acquire (slot : Nat)
  | waitImageFence (image : Nat) (slot : Nat)
  | resetFence (slot : Nat)
  | submitSignal (slot : Nat)
  | present (image : Nat)
  deriving DecidableEq, Repr

/-- Scheduler state: current_frame and images_in_flight (main.rs 53, 57);
images_in_flight maps an image index to the slot whose fence owns the image,
none modelling vk::Fence::null(). -/
structure SchedState where
  current_frame : Nat
  images_in_flight : List (Option Nat)
  deriving DecidableEq, Repr

/-- VulkanApp::draw_frame (main.rs 259-325) as a state transition plus the
ordered list of synchronization events it performs: wait on the slot fence,
acquire an image (index supplied by the presentation engine, modelled as an
argument), wait on the image's owning fence when non-null, record the slot
fence as the image's owner, reset the slot fence, submit signalling the slot
fence, present, and advance the slot index modulo MAX_FRAMES_IN_FLIGHT. -/
def draw_frame (s : SchedState) (image_index : Nat) :
    SchedState × List FrameEv :=
  let c := s.current_frame
  let image_wait :=
    match s.images_in_flight.getD image_index none with
    | some f => [FrameEv.waitImageFence image_index f]
    | none => []
  ({ current_frame := (c + 1) % MAX_FRAMES_IN_FLIGHT,
     images_in_flight := s.images_in_flight.set image_index (some c) },
   [FrameEv.waitFence c, FrameEv.acquire c] ++ image_wait
     ++ [FrameEv.resetFence c, FrameEv.submitSignal c,
         FrameEv.present image_index])

/-- C1: in every tick the slot fence is waited on before it is reset and
before the submission that signals it; the slot index advances by 1 modulo
MAX_FRAMES_IN_FLIGHT (= 2); hence after exactly two ticks starting from
slot 0 the slot index returns to 0. -/
theorem draw_frame_spec (s : SchedState) (image_index : Nat)
    (himg : image_index < s.images_in_flight.length) :
    (∃ i j k : Nat, i < j ∧ j < k ∧
      (draw_frame s image_index).2.get? i
        = some (FrameEv.waitFence s.current_frame) ∧
      (draw_frame s image_index).2.get? j
        = some (FrameEv.resetFence s.current_frame) ∧
      (draw_frame s image_index).2.get? k
        = some (FrameEv.submitSignal s.current_frame)) ∧
    (draw_frame s image_index).1.current_frame
      = (s.current_frame + 1) % MAX_FRAMES_IN_FLIGHT ∧
    MAX_FRAMES_IN_FLIGHT = 2 ∧
    (∀ image_index2, s.current_frame = 0 →
      (draw_frame (draw_frame s image_index).1 image_index2).1.current_frame
        = 0) := by
  refine ⟨?_, rfl, rfl, ?_⟩
  · cases h : s.images_in_flight[image_index]?.getD none with
    | none =>
      refine ⟨0, 2, 3, by omega, by omega, ?_, ?_, ?_⟩ <;>
        simp [draw_frame, h]
    | some f =>
      refine ⟨0, 3, 4, by omega, by omega, ?_, ?_, ?_⟩ <;>
        simp [draw_frame, h]
  · intro image_index2 h0
    simp [draw_frame, MAX_FRAMES_IN_FLIGHT, h0]

/-- Scheduler state used by the C1 witness: slot 0, three images, none in
flight. -/
def c1State : SchedState :=
  { current_frame := 0, images_in_flight := [none, none, none] }

/-- C1 witness: from slot 0 with three images none of which is in flight,
one tick moves to slot 1 and a second tick returns to slot 0. -/
theorem draw_frame_spec_witness :
    (draw_frame c1State 1).1.current_frame = 1 ∧
    (draw_frame (draw_frame c1State 1).1 2).1.current_frame = 0 :=
  ⟨((draw_frame_spec c1State 1 (by decide)).2.1).trans (by decide),
   (draw_frame_spec c1State 1 (by decide)).2.2.2 2 rfl⟩

/-- The destroyable resources of the application (grouping the per-slot
semaphores and fences, the framebuffers, and the image views as in the
teardown loops that destroy them). -/
inductive Resource where
  | debugSink
  | slotSync
  | framebuffers
  | imageViews
  | pipeline
  | commandPool
  | pipelineLayout
  | renderPass
  | device
  | surface
  | swapchain
  | instanceObj
  deriving DecidableEq, Repr

/-- Creation order of the destroyed resources in VulkanApp::new
(main.rs 125-230): instance (129), surface (130), debug messenger (134),
logical device (146), swapchain (153), image views (166), render pass (169),
pipeline layout then pipeline (170), framebuffers (173), command pool (180),
per-slot sync objects (191). -/
def creationOrder : List Resource :=
  [Resource.instanceObj, Resource.surface, Resource.debugSink,
   Resource.device, Resource.swapchain, Resource.imageViews,
   Resource.renderPass, Resource.pipelineLayout, Resource.pipeline,
   Resource.framebuffers, Resource.commandPool, Resource.slotSync]

/-- Events of the teardown path. -/
inductive TeardownEv where
  | deviceWaitIdle
  | destroy (r : Resource)
  deriving DecidableEq, Repr

/-- impl Drop for VulkanApp (main.rs 1112-1158) as the ordered event list it
performs: device_wait_idle first, then the destroy calls in program order. -/
def drop_events : List TeardownEv :=
  [TeardownEv.deviceWaitIdle,
   TeardownEv.destroy Resource.debugSink,
   TeardownEv.destroy Resource.slotSync,
   TeardownEv.destroy Resource.framebuffers,
   TeardownEv.destroy Resource.imageViews,
   TeardownEv.destroy Resource.pipeline,
   TeardownEv.destroy Resource.commandPool,
   TeardownEv.destroy Resource.pipelineLayout,
   TeardownEv.destroy Resource.renderPass,
   TeardownEv.destroy Resource.device,
   TeardownEv.destroy Resource.surface,
   TeardownEv.destroy Resource.swapchain,
   TeardownEv.destroy Resource.instanceObj]

/-- The resources in the order Drop destroys them. -/
def destructionOrder : List Resource :=
  drop_events.filterMap (fun e =>
    match e with
    | TeardownEv.destroy r => some r
    | TeardownEv.deviceWaitIdle => none)

/-- C2 counterexample: the destruction sequence is NOT the exact reverse of
the creation order — for example the swapchain is destroyed after the
logical device though created after it, and the debug sink is destroyed
first though created third. -/
theorem drop_order_claim_counterexample :
    destructionOrder ≠ creationOrder.reverse := by
  decide

/-- C2 (amended): teardown performs device_wait_idle first, before any
destroy call (in particular before destroying any per-frame synchronization
object), and then destroys resources in the fixed sequence debug sink →
per-slot semaphores/fences → framebuffers → image views → pipeline →
command pool → pipeline layout → render pass → logical device → surface →
swapchain → instance; this sequence is not the exact reverse of the
creation order. -/
theorem drop_spec :
    drop_events = TeardownEv.deviceWaitIdle ::
      destructionOrder.map TeardownEv.destroy ∧
    destructionOrder =
      [Resource.debugSink, Resource.slotSync, Resource.framebuffers,
       Resource.imageViews, Resource.pipeline, Resource.commandPool,
       Resource.pipelineLayout, Resource.renderPass, Resource.device,
       Resource.surface, Resource.swapchain, Resource.instanceObj] ∧
    drop_events.get? 0 = some TeardownEv.deviceWaitIdle ∧
    (∀ n r, drop_events.get? n = some (TeardownEv.destroy r) → 0 < n) := by
  refine ⟨by decide, by decide, by decide, ?_⟩
  intro n r h
  cases n with
  | zero => simp [drop_events] at h
  | succ m => omega

/-- C2 witness: the debug sink destruction is found at position 1, strictly
after the device-idle wait at position 0. -/
theorem drop_spec_witness : 0 < 1 :=
  drop_spec.2.2.2 1 Resource.debugSink (by decide)
